import Mathlib

/-!
Verification of the `jwt` package (claims validation, RSA algorithm key
handling, and claims merging) against its natural-language specification.

The Go source is shallowly embedded: byte slices become `List Nat` (byte
values), `time.Time` becomes a record of Unix seconds plus a nanosecond
fraction, Go `error` results become `Option GoError` (with `none` as the
nil error) or `Except GoError` for functions returning a value and an
error, and calls into the external crypto / JSON libraries become explicit
function parameters (those libraries are outside the package and outside
the spec's scope).
-/

/-- The sentinel error values of the package (`claims.go` and the
algorithm files).  `other` stands for an arbitrary error produced by an
external collaborator (JSON encoder, crypto library). -/
inductive GoError where
  | errExpired
  | errNotValidYet
  | errIssuedInTheFuture
  | errInvalidKey
  | other (msg : String)
deriving DecidableEq, Repr

/-- A Go `time.Time`, reduced to the observables `validateClaims` uses:
Unix seconds and the nanosecond fraction (`0 ≤ nsec < 10^9` for a valid
time). -/
structure GoTime where
  sec : Int
  nsec : Nat
deriving DecidableEq, Repr

/-- `t.Round(time.Second).Unix()` from `claims.go:58`.  Go's `Round`
rounds to the nearest whole second since the zero time (January 1,
year 1), with halfway values rounding up; for every time at or after the
zero time this is: fractions below half a second round down, fractions of
half a second or more round up. -/
def goRoundSecondUnix (t : GoTime) : Int :=
  if t.nsec < 500000000 then t.sec else t.sec + 1

/-- The `Claims` struct of `claims.go`: the three temporal fields are
`int64` Unix seconds, the rest are identification fields. -/
structure Claims where
  NotBefore : Int := 0
  IssuedAt : Int := 0
  Expiry : Int := 0
  ID : String := ""
  Issuer : String := ""
  Subject : String := ""
  Audience : List String := []
deriving DecidableEq, Repr

/-- `validateClaims` from `claims.go:57-79`.  Each Go block
`if claims.F > 0 { if now < claims.F { return err } }` is an early
return, embedded as a chain of conditionals; `none` is the nil error. -/
def validateClaims (t : GoTime) (claims : Claims) : Option GoError :=
  let now := goRoundSecondUnix t
  if 0 < claims.NotBefore ∧ now < claims.NotBefore then
    some GoError.errNotValidYet
  else if 0 < claims.IssuedAt ∧ now < claims.IssuedAt then
    some GoError.errIssuedInTheFuture
  else if 0 < claims.Expiry ∧ claims.Expiry < now then
    some GoError.errExpired
  else
    none

/-- Go's `rsa.PublicKey`: modulus and public exponent. -/
structure RSAPublicKey where
  N : Nat
  E : Nat
deriving DecidableEq, Repr

/-- Go's `rsa.PrivateKey`: the embedded public key and the private
exponent (the further CRT fields are irrelevant to key-family checks). -/
structure RSAPrivateKey where
  PublicKey : RSAPublicKey
  D : Nat
deriving DecidableEq, Repr

/-- The dynamic type of the `interface{}` key parameter: the type
assertions in `rsa.go` distinguish `*rsa.PrivateKey`, `*rsa.PublicKey`,
and everything else (byte secrets, keys of other families, ...). -/
inductive Key where
  | rsaPrivate (k : RSAPrivateKey)
  | rsaPublic (k : RSAPublicKey)
  | hmacSecret (b : List Nat)
  | otherKey (tag : String)
deriving DecidableEq, Repr

/-- The `algRSA` struct of `rsa.go`: algorithm name and the hash function
selected by `hasher` (the hash computation itself is the external
`crypto` library, embedded as the function field). -/
structure AlgRSA where
  name : String
  hasher : List Nat → List Nat

/-- `algRSA.Sign` from `rsa.go:18-33`.  `signPKCS1v15` stands for the
external `rsa.SignPKCS1v15` (which may fail, e.g. on RNG failure); the
`h.Write` error branch is dead code in Go (hash writers never fail) and
the hash is embedded as a total function. -/
def algRSA.Sign (a : AlgRSA)
    (signPKCS1v15 : RSAPrivateKey → List Nat → Except GoError (List Nat))
    (headerAndPayload : List Nat) (key : Key) : Except GoError (List Nat) :=
  match key with
  | Key.rsaPrivate privateKey =>
      signPKCS1v15 privateKey (a.hasher headerAndPayload)
  | _ => Except.error GoError.errInvalidKey

/-- `algRSA.Verify` from `rsa.go:35-54`.  The Go code first asserts
`*rsa.PublicKey`; failing that it asserts `*rsa.PrivateKey` and uses its
embedded `PublicKey`; otherwise it returns `ErrInvalidKey`.
`verifyPKCS1v15` stands for the external `rsa.VerifyPKCS1v15`. -/
def algRSA.Verify (a : AlgRSA)
    (verifyPKCS1v15 : RSAPublicKey → List Nat → List Nat → Option GoError)
    (headerAndPayload signature : List Nat) (key : Key) : Option GoError :=
  match key with
  | Key.rsaPublic publicKey =>
      verifyPKCS1v15 publicKey (a.hasher headerAndPayload) signature
  | Key.rsaPrivate privateKey =>
      verifyPKCS1v15 privateKey.PublicKey (a.hasher headerAndPayload) signature
  | _ => some GoError.errInvalidKey

/-- The ASCII comma byte appended by `Merge` between the two spliced
objects. -/
def commaByte : Nat := 44

/-- `Merge` from `claims.go:96-117`.  The repository's `Marshal` function
is not part of the verified sources; per the spec it is the black-box
collaborator `marshal(value) -> bytes, error`, embedded here as the
function parameter `marshal`.  The result is `Option (List Nat)` with
`none` for Go's nil byte slice (which the code returns when either
marshal call fails).  `claimsB[0 : len(claimsB)-1]` and `otherB[1:]`
become `dropLast` and `drop 1`; the splice branch is reached only with
`otherB` non-empty, and the claims proved about it also assume a
non-empty `claimsB` (a JSON object), where the embedding and the Go
slicing agree. -/
def Merge {α : Type} (marshal : α → Except GoError (List Nat))
    (claims other : α) : Option (List Nat) :=
  match marshal claims with
  | Except.error _ => none
  | Except.ok claimsB =>
    match marshal other with
    | Except.error _ => none
    | Except.ok otherB =>
      if otherB.length = 0 then
        some claimsB
      else
        some (claimsB.dropLast ++ commaByte :: otherB.drop 1)

lemma goRoundSecondUnix_whole (sec : Int) : goRoundSecondUnix ⟨sec, 0⟩ = sec := by
  norm_num [goRoundSecondUnix]

/-- Claim C1: with `Expiry = T > 0` and the other temporal fields not
violated, validation at whole-second time `T` succeeds (inclusive upper
bound) and at `T + 1` fails with `errExpired`; with `NotBefore = T > 0`,
validation at `T - 1` fails with `errNotValidYet` and at `T` succeeds
when no other temporal field is violated. -/
theorem claim_C1_temporal_boundaries (T : Int) (c : Claims) (hT : 0 < T) :
    (c.Expiry = T → (0 < c.NotBefore → c.NotBefore ≤ T) →
      (0 < c.IssuedAt → c.IssuedAt ≤ T) →
      validateClaims ⟨T, 0⟩ c = none ∧
        validateClaims ⟨T + 1, 0⟩ c = some GoError.errExpired) ∧
    (c.NotBefore = T →
      validateClaims ⟨T - 1, 0⟩ c = some GoError.errNotValidYet ∧
        ((0 < c.IssuedAt → c.IssuedAt ≤ T) → (0 < c.Expiry → T ≤ c.Expiry) →
          validateClaims ⟨T, 0⟩ c = none)) := by
  constructor
  · intro hexp hnbf hiat
    constructor <;>
      · simp only [validateClaims, goRoundSecondUnix_whole]
        split_ifs <;> first | rfl | omega
  · intro hnbf
    refine ⟨?_, ?_⟩
    · simp only [validateClaims, goRoundSecondUnix_whole]
      split_ifs <;> first | rfl | omega
    · intro hiat hexp
      simp only [validateClaims, goRoundSecondUnix_whole]
      split_ifs <;> first | rfl | omega

theorem claim_C1_temporal_boundaries_witness :
    validateClaims ⟨100, 0⟩ ⟨100, 0, 100, "", "", "", []⟩ = none ∧
    validateClaims ⟨101, 0⟩ ⟨100, 0, 100, "", "", "", []⟩ =
      some GoError.errExpired ∧
    validateClaims ⟨99, 0⟩ ⟨100, 0, 100, "", "", "", []⟩ =
      some GoError.errNotValidYet := by
  obtain ⟨hA, hB⟩ :=
    claim_C1_temporal_boundaries 100 ⟨100, 0, 100, "", "", "", []⟩ (by decide)
  obtain ⟨h1, h2⟩ := hA rfl (by decide) (by decide)
  obtain ⟨h3, h4⟩ := hB rfl
  norm_num at h2 h3
  exact ⟨h1, h2, h3⟩

/-- Claim C2 as stated is false: `validateClaims` rounds the current time
to the nearest second (Go `time.Round`), not down; adding half a second
changes the result at an expiry boundary. -/
theorem claim_C2_counterexample :
    validateClaims ⟨100, 500000000⟩ ⟨0, 0, 100, "", "", "", []⟩ ≠
      validateClaims ⟨100, 0⟩ ⟨0, 0, 100, "", "", "", []⟩ := by decide

/-- Claim C2 (amended): the current time is rounded to the nearest whole
second before any comparison — a sub-second fraction below half a second
rounds down, and one of half a second or more rounds up — so validating
at `t + f` equals validating at `t` when `f < 0.5s` and equals validating
at `t + 1s` when `f ≥ 0.5s`. -/
theorem claim_C2_round_to_nearest_second (sec : Int) (nsec : Nat) (c : Claims)
    (h : nsec < 1000000000) :
    validateClaims ⟨sec, nsec⟩ c =
      if nsec < 500000000 then validateClaims ⟨sec, 0⟩ c
      else validateClaims ⟨sec + 1, 0⟩ c := by
  by_cases hn : nsec < 500000000 <;>
    norm_num [validateClaims, goRoundSecondUnix, hn]

theorem claim_C2_round_to_nearest_second_witness :
    validateClaims ⟨5, 700000000⟩ ⟨0, 0, 5, "", "", "", []⟩ =
      if (700000000 : Nat) < 500000000 then
        validateClaims ⟨5, 0⟩ ⟨0, 0, 5, "", "", "", []⟩
      else validateClaims ⟨5 + 1, 0⟩ ⟨0, 0, 5, "", "", "", []⟩ :=
  claim_C2_round_to_nearest_second 5 700000000 ⟨0, 0, 5, "", "", "", []⟩
    (by decide)

/-- Claim C3: the temporal checks run in the fixed order not-before,
issued-at, expiry, and only the first violated rule's error is returned;
in particular a violated not-before masks a violated expiry
(`errNotValidYet` is reported), and a violated issued-at masks a violated
expiry (`errIssuedInTheFuture` is reported). -/
theorem claim_C3_first_violation_order (t : GoTime) (c : Claims) :
    ((0 < c.NotBefore ∧ goRoundSecondUnix t < c.NotBefore) →
      validateClaims t c = some GoError.errNotValidYet) ∧
    (¬(0 < c.NotBefore ∧ goRoundSecondUnix t < c.NotBefore) →
      (0 < c.IssuedAt ∧ goRoundSecondUnix t < c.IssuedAt) →
      validateClaims t c = some GoError.errIssuedInTheFuture) ∧
    (¬(0 < c.NotBefore ∧ goRoundSecondUnix t < c.NotBefore) →
      ¬(0 < c.IssuedAt ∧ goRoundSecondUnix t < c.IssuedAt) →
      (0 < c.Expiry ∧ c.Expiry < goRoundSecondUnix t) →
      validateClaims t c = some GoError.errExpired) ∧
    ((0 < c.NotBefore ∧ goRoundSecondUnix t < c.NotBefore) →
      (0 < c.Expiry ∧ c.Expiry < goRoundSecondUnix t) →
      validateClaims t c = some GoError.errNotValidYet) ∧
    (¬(0 < c.NotBefore ∧ goRoundSecondUnix t < c.NotBefore) →
      (0 < c.IssuedAt ∧ goRoundSecondUnix t < c.IssuedAt) →
      (0 < c.Expiry ∧ c.Expiry < goRoundSecondUnix t) →
      validateClaims t c = some GoError.errIssuedInTheFuture) := by
  refine ⟨?_, ?_, ?_, ?_, ?_⟩ <;>
    · intros
      simp only [validateClaims]
      split_ifs <;> first | rfl | omega

theorem claim_C3_first_violation_order_witness :
    validateClaims ⟨5, 0⟩ ⟨10, 0, 3, "", "", "", []⟩ =
      some GoError.errNotValidYet ∧
    validateClaims ⟨5, 0⟩ ⟨0, 10, 3, "", "", "", []⟩ =
      some GoError.errIssuedInTheFuture := by
  constructor
  · exact (claim_C3_first_violation_order ⟨5, 0⟩
      ⟨10, 0, 3, "", "", "", []⟩).2.2.2.1 (by decide) (by decide)
  · exact (claim_C3_first_violation_order ⟨5, 0⟩
      ⟨0, 10, 3, "", "", "", []⟩).2.2.2.2 (by decide) (by decide) (by decide)

/-- Claim C4: a claims value whose three temporal fields are all zero
passes validation at every current time. -/
theorem claim_C4_zero_claims_skip (t : GoTime) (c : Claims)
    (hn : c.NotBefore = 0) (hi : c.IssuedAt = 0) (he : c.Expiry = 0) :
    validateClaims t c = none := by
  simp [validateClaims, hn, hi, he]

theorem claim_C4_zero_claims_skip_witness :
    validateClaims ⟨987654321, 123456⟩ ⟨0, 0, 0, "id", "iss", "sub", ["a"]⟩ =
      none :=
  claim_C4_zero_claims_skip ⟨987654321, 123456⟩
    ⟨0, 0, 0, "id", "iss", "sub", ["a"]⟩ rfl rfl rfl

/-- Claim C10: the validator's result depends only on the current time
and the three temporal fields; two claims values agreeing on
`NotBefore`, `IssuedAt` and `Expiry` validate identically at every time,
whatever their `ID`, `Issuer`, `Subject` and `Audience`. -/
theorem claim_C10_depends_only_on_temporal_fields (t : GoTime)
    (c₁ c₂ : Claims) (hn : c₁.NotBefore = c₂.NotBefore)
    (hi : c₁.IssuedAt = c₂.IssuedAt) (he : c₁.Expiry = c₂.Expiry) :
    validateClaims t c₁ = validateClaims t c₂ := by
  simp only [validateClaims, hn, hi, he]

theorem claim_C10_depends_only_on_temporal_fields_witness :
    validateClaims ⟨50, 0⟩ ⟨10, 20, 90, "a", "b", "c", ["d"]⟩ =
      validateClaims ⟨50, 0⟩ ⟨10, 20, 90, "x", "y", "z", []⟩ :=
  claim_C10_depends_only_on_temporal_fields ⟨50, 0⟩
    ⟨10, 20, 90, "a", "b", "c", ["d"]⟩ ⟨10, 20, 90, "x", "y", "z", []⟩
    rfl rfl rfl

/-- Claim C5: for the RSA algorithm, `Sign` fails with `errInvalidKey`
whenever the key is not an RSA private key; `Verify` fails with
`errInvalidKey` whenever the key is neither an RSA public key nor an RSA
private key; and given an RSA private key, `Verify` derives the public
component and proceeds with the underlying verification — a wrong-family
key never silently succeeds. -/
theorem claim_C5_rsa_key_family_enforcement (a : AlgRSA)
    (signPKCS1v15 : RSAPrivateKey → List Nat → Except GoError (List Nat))
    (verifyPKCS1v15 : RSAPublicKey → List Nat → List Nat → Option GoError)
    (input sig : List Nat) (key : Key) :
    ((∀ k, key ≠ Key.rsaPrivate k) →
      algRSA.Sign a signPKCS1v15 input key =
        Except.error GoError.errInvalidKey) ∧
    ((∀ k, key ≠ Key.rsaPublic k) → (∀ k, key ≠ Key.rsaPrivate k) →
      algRSA.Verify a verifyPKCS1v15 input sig key =
        some GoError.errInvalidKey) ∧
    (∀ sk, key = Key.rsaPrivate sk →
      algRSA.Verify a verifyPKCS1v15 input sig key =
        verifyPKCS1v15 sk.PublicKey (a.hasher input) sig) := by
  refine ⟨?_, ?_, ?_⟩
  · intro h
    cases key with
    | rsaPrivate k => exact absurd rfl (h k)
    | rsaPublic k => rfl
    | hmacSecret b => rfl
    | otherKey s => rfl
  · intro hpub hpriv
    cases key with
    | rsaPrivate k => exact absurd rfl (hpriv k)
    | rsaPublic k => exact absurd rfl (hpub k)
    | hmacSecret b => rfl
    | otherKey s => rfl
  · rintro sk rfl
    rfl

theorem claim_C5_rsa_key_family_enforcement_witness :
    algRSA.Sign ⟨"RS256", id⟩ (fun _ _ => Except.ok []) [1]
        (Key.hmacSecret [7]) = Except.error GoError.errInvalidKey ∧
    algRSA.Verify ⟨"RS256", id⟩ (fun _ _ _ => none) [1] [2]
        (Key.hmacSecret [7]) = some GoError.errInvalidKey ∧
    algRSA.Verify ⟨"RS256", id⟩ (fun _ _ _ => none) [1] [2]
        (Key.rsaPrivate ⟨⟨15, 3⟩, 5⟩) = none := by
  obtain ⟨h1, h2, h3⟩ :=
    claim_C5_rsa_key_family_enforcement ⟨"RS256", id⟩
      (fun _ _ => Except.ok []) (fun _ _ _ => none) [1] [2]
      (Key.hmacSecret [7])
  obtain ⟨_, _, h4⟩ :=
    claim_C5_rsa_key_family_enforcement ⟨"RS256", id⟩
      (fun _ _ => Except.ok []) (fun _ _ _ => none) [1] [2]
      (Key.rsaPrivate ⟨⟨15, 3⟩, 5⟩)
  refine ⟨h1 ?_, h2 ?_ ?_, h4 ⟨⟨15, 3⟩, 5⟩ rfl⟩ <;>
    · intro k h
      exact Key.noConfusion h

/-- Claim C9: verifying with an RSA private key gives exactly the same
result as verifying with the public key contained in it. -/
theorem claim_C9_verify_private_equals_public (a : AlgRSA)
    (verifyPKCS1v15 : RSAPublicKey → List Nat → List Nat → Option GoError)
    (input sig : List Nat) (sk : RSAPrivateKey) :
    algRSA.Verify a verifyPKCS1v15 input sig (Key.rsaPrivate sk) =
      algRSA.Verify a verifyPKCS1v15 input sig
        (Key.rsaPublic sk.PublicKey) := rfl

/-- Claim C6: when the secondary operand serializes to empty/absent
bytes (the representation of an empty/absent JSON object that `Merge`
tests with `len(otherB) == 0`), `Merge` returns exactly the primary's
serialized bytes, unchanged. -/
theorem claim_C6_merge_empty_secondary {α : Type}
    (marshal : α → Except GoError (List Nat)) (claims other : α)
    (claimsB : List Nat) (hc : marshal claims = Except.ok claimsB)
    (ho : marshal other = Except.ok []) :
    Merge marshal claims other = some claimsB := by
  simp [Merge, hc, ho]

theorem claim_C6_merge_empty_secondary_witness :
    Merge (fun b : Bool =>
        if b then Except.ok [123, 125] else Except.ok []) true false =
      some [123, 125] :=
  claim_C6_merge_empty_secondary _ true false [123, 125] rfl rfl

/-- Claim C7: when both operands serialize to non-empty JSON objects —
the primary to `p ++ [125]` (ending in the closing brace, byte 125) and
the secondary to `123 :: s` (starting with the opening brace, byte 123) —
`Merge` returns the primary's bytes with the final closing brace removed,
then the comma separator, then the secondary's bytes with the initial
opening brace removed; no duplicate-key detection happens. -/
theorem claim_C7_merge_splices_objects {α : Type}
    (marshal : α → Except GoError (List Nat)) (claims other : α)
    (p s : List Nat) (hc : marshal claims = Except.ok (p ++ [125]))
    (ho : marshal other = Except.ok (123 :: s)) :
    Merge marshal claims other = some (p ++ commaByte :: s) := by
  simp [Merge, hc, ho]

theorem claim_C7_merge_splices_objects_witness :
    Merge (fun b : Bool =>
        if b then Except.ok [123, 97, 125] else Except.ok [123, 98, 125])
      true false = some ([123, 97] ++ commaByte :: [98, 125]) :=
  claim_C7_merge_splices_objects _ true false [123, 97] [98, 125] rfl rfl

/-- Claim C8 as stated is false: `Merge` has no error result — when a
marshal call fails, the Go code returns nil (`none` here), discarding
the error entirely; two marshal functions failing with different errors
are indistinguishable to the caller. -/
theorem claim_C8_counterexample :
    Merge (fun _ : Nat => Except.error (GoError.other "disk full")) 1 2 =
      Merge (fun _ : Nat => Except.error GoError.errInvalidKey) 1 2 ∧
    Merge (fun _ : Nat => Except.error (GoError.other "disk full")) 1 2 =
      none := ⟨rfl, rfl⟩

/-- Claim C8 (amended): when JSON serialization of either operand fails,
`Merge` discards the error and returns nil (`none`); the failure is
observable only as a nil result, never as an error value. -/
theorem claim_C8_merge_discards_marshal_errors {α : Type}
    (marshal : α → Except GoError (List Nat)) (claims other : α) :
    ((∃ e, marshal claims = Except.error e) →
      Merge marshal claims other = none) ∧
    ((∃ e, marshal other = Except.error e) →
      Merge marshal claims other = none) := by
  constructor
  · rintro ⟨e, he⟩
    simp [Merge, he]
  · rintro ⟨e, he⟩
    unfold Merge
    cases h : marshal claims with
    | error e₂ => rfl
    | ok claimsB => simp [he]

theorem claim_C8_merge_discards_marshal_errors_witness :
    Merge (fun n : Nat =>
        if n = 2 then Except.error (GoError.other "boom")
        else Except.ok [123, 125]) 1 2 = none :=
  (claim_C8_merge_discards_marshal_errors _ 1 2).2 ⟨GoError.other "boom", rfl⟩
